import Mathlib

/-!
# Verification of the Kualitee record-reconciliation and evaluation pipeline

Shallow embedding of the core logic of the Kualitee web application:

* `validateAndMergeData` — the join/validation routine of `src/app/page.tsx`
  (identical in the `src/unnamed/part_003..005` page variants): MSID column
  check, MSID parity check, and target-ordered merge via a source key map.
* `evaluateBatchPOST` — the per-record evaluation loop of the
  `/api/evaluate` POST handler (`src/app/api/evaluate/route.ts`), with the
  external model call abstracted as a function returning `Option` (`none`
  models a thrown error or an unparseable response).
* `generateDemoScores` / `evaluateBatchDemoPOST` — the demo-mode branch of
  the same handler, with `Math.random()` abstracted as an oracle of rational
  draws in `[0,1)`.
* `runEvaluationResults` / `runEvaluationFlow` — the client-side batching
  loop of `runEvaluation` (`src/app/page.tsx`, `src/unnamed/part_003`),
  with the `fetch` transport abstracted as a function returning `Option`.
* `averageScore` — the per-KPI average of `/api/generate-summary`
  (`src/app/api/generate-summary/route.ts`, `src/unnamed/part_006`).
* `summaryStatsFor` — the mean/median statistics of
  `src/components/ResultsDisplay.tsx`.
* `getStatusText` (`src/components/ResultsDisplay.tsx`) and
  `getExplanationForScore` (`src/unnamed/part_006`) — the two score
  classifiers.
* `updateEvaluationResult` — the re-evaluation splice of `src/lib/store.ts`.

JavaScript numbers are modelled as `ℚ`; table cell values as
`Option String` (`none` models an absent/undefined cell, scalars are kept
as strings since only emptiness and equality of key values matter here).
-/

namespace Kualitee

/-- A cell value of a row: `none` models an absent / `undefined` cell,
`some s` a stored scalar (rendered as a string). -/
abbrev Value := Option String

/-- A data row: an ordered mapping from column name to cell value
(JavaScript object with string keys). -/
abbrev Row := List (String × Value)

/-- `'col' in row` — the JavaScript `in` operator on a row object. -/
def rowHas (r : Row) (c : String) : Bool :=
  r.any (fun p => p.1 == c)

/-- `row[c]` — property access on a row object; absent keys give
`undefined` (modelled `none`). -/
def rowGet (r : Row) (c : String) : Value :=
  match r.find? (fun p => p.1 == c) with
  | some p => p.2
  | none => none

/-- `row.MSID` — the key value of a row. -/
def msid (r : Row) : Value := rowGet r "MSID"

/-- Which input file a validation message refers to
(`SOURCE_INPUT` / `TARGET_OUTPUT`). -/
inductive Side where
  | source
  | target
deriving DecidableEq, Repr

/-- One entry of the `MSID_PARITY_ERROR` details list:
`MSID ${key}: Missing in <side>` — the offending key value together with
the side it is missing from. -/
structure MissingEntry where
  key : Value
  missingFrom : Side
deriving DecidableEq, Repr

/-- Outcome of `validateAndMergeData`: the `MISSING_MSID_COLUMN` error,
the `MSID_PARITY_ERROR` error with its details list, or the merged
record list together with the accumulated data-mismatch log. -/
inductive MatchOutcome where
  | missingKey (side : Side)
  | parityError (details : List MissingEntry)
  | merged (pairs : List (Row × Row)) (mismatches : List (Value × String))
deriving DecidableEq, Repr

/-- `sourceData.length > 0 && 'MSID' in sourceData[0]` — the per-side MSID
column check of `validateAndMergeData` (false for an empty row set). -/
def hasKeyCol : List Row → Bool
  | [] => false
  | r :: _ => rowHas r "MSID"

/-- Fuel-driven worker for `dedupFirst` (the fuel, always at least the
list length, makes the recursion structural and hence kernel-computable). -/
def dedupFirstAux : Nat → List Value → List Value
  | _, [] => []
  | 0, _ :: _ => []
  | n + 1, a :: l => a :: dedupFirstAux n (l.filter (fun b => b ≠ a))

/-- `new Set(rows.map(row => row.MSID))` enumerated in insertion order:
the distinct values of a list, keeping the first occurrence of each. -/
def dedupFirst (l : List Value) : List Value :=
  dedupFirstAux l.length l

/-- The set of MSID key values of a row set, in first-occurrence order. -/
def keysOf (rows : List Row) : List Value :=
  dedupFirst (rows.map msid)

/-- Index of the first occurrence of a value in a list (list length when
absent); used to state the spec's "sorted by first occurrence in the
union of both sides" ordering of the parity-error details. -/
def firstIdx : List Value → Value → Nat
  | [], _ => 0
  | a :: t, k => if a = k then 0 else firstIdx t k + 1

/-- `new Map(sourceData.map(row => [row.MSID, row])).get(k)` — key lookup in
the source index; a later row with the same key overwrites an earlier one,
so the last matching row wins. -/
def mapGet : List Row → Value → Option Row
  | [], _ => none
  | r :: rs, k =>
    match mapGet rs k with
    | some r2 => some r2
    | none => if msid r = k then some r else none

/-- `value === '' || value === null || value === undefined` — the empty-cell
test of the data-mismatch scan. -/
def emptyVal : Value → Bool
  | none => true
  | some s => s == ""

/-- The data-mismatch entries contributed by one row: one
`(row.MSID, "<side>.<field>")` pair per empty field, in field order. -/
def rowMismatches (tag : String) (r : Row) : List (Value × String) :=
  r.filterMap (fun p =>
    if emptyVal p.2 then some (msid r, tag ++ "." ++ p.1) else none)

/-- The merge loop of `validateAndMergeData`: iterate the target rows in
order, pair each with the source row found in the key map (rows whose key
misses the map are skipped by the `if (sourceRow)` guard). -/
def joinRows (src tgt : List Row) : List (Row × Row) :=
  tgt.filterMap (fun t => (mapGet src (msid t)).map (fun s => (s, t)))

/-- The data-mismatch log accumulated during the merge loop: for each
joined pair, the empty-cell entries of the source row then of the target
row. -/
def joinMismatches (src tgt : List Row) : List (Value × String) :=
  (joinRows src tgt).flatMap
    (fun p => rowMismatches "SOURCE" p.1 ++ rowMismatches "TARGET" p.2)

/-- `validateAndMergeData` of `src/app/page.tsx` (lines 45–114): MSID
column check naming the failing side, MSID parity check building the
details list (keys missing in target first, then keys missing in source),
then the target-ordered merge. -/
def validateAndMergeData (src tgt : List Row) : MatchOutcome :=
  if !hasKeyCol src || !hasKeyCol tgt then
    .missingKey (if !hasKeyCol src then .source else .target)
  else
    let missingInTarget := (keysOf src).filter (fun k => !(keysOf tgt).contains k)
    let missingInSource := (keysOf tgt).filter (fun k => !(keysOf src).contains k)
    if missingInTarget.length > 0 || missingInSource.length > 0 then
      .parityError
        (missingInTarget.map (fun k => ⟨k, .target⟩) ++
         missingInSource.map (fun k => ⟨k, .source⟩))
    else
      .merged (joinRows src tgt) (joinMismatches src tgt)

/-- A joined record `{ source, target }` as submitted to `/api/evaluate`. -/
abbrev Joined := Row × Row

/-- A KPI definition (`src/lib/types.ts`). -/
structure KPI where
  id : Nat
  name : String
  description : String
  shortName : String
deriving DecidableEq, Repr

/-- One `{kpiId, score, explanation}` entry of an evaluation result;
scores are JavaScript numbers, modelled as `ℚ`. -/
structure ScoreEntry where
  kpiId : Nat
  score : ℚ
  explanation : String
deriving DecidableEq, Repr

/-- An `EvaluationResult` `{msid, scores}` (`src/lib/types.ts`). -/
structure EvaluationResult where
  msid : Value
  scores : List ScoreEntry
deriving DecidableEq, Repr

/-- The per-record fallback of the `/api/evaluate` POST handler: one
`{kpiId, score: 0, explanation: 'Evaluation failed'}` entry per requested
KPI. -/
def fallbackScores (kpis : List KPI) : List ScoreEntry :=
  kpis.map (fun k => ⟨k.id, 0, "Evaluation failed"⟩)

/-- The `batch.map` / `Promise.all` loop of the `/api/evaluate` POST
handler (`src/app/api/evaluate/route.ts`, lines 62–127): every record is
scored independently; the external model call is abstracted as
`evalF : Joined → Option (List ScoreEntry)`, where `none` models a thrown
error or an unparseable response and is replaced by the fallback scores. -/
def evaluateBatchPOST (evalF : Joined → Option (List ScoreEntry))
    (batch : List Joined) (kpis : List KPI) : List EvaluationResult :=
  batch.map (fun rec =>
    { msid := msid rec.1, scores := (evalF rec).getD (fallbackScores kpis) })

/-- The batch-size constant of the client page (`BATCH_SIZE = 20`). -/
def BATCH_SIZE : Nat := 20

/-- Fuel-driven worker for `mkBatches` (the fuel, always at least the
list length, makes the recursion structural and hence kernel-computable;
with a positive batch size the fuel never runs out). -/
def mkBatchesAux (b : Nat) : Nat → List α → List (List α)
  | _, [] => []
  | 0, _ :: _ => []
  | n + 1, x :: xs => (x :: xs).take b :: mkBatchesAux b n ((x :: xs).drop b)

/-- The batch-creation loop
`for (let i = 0; i < l.length; i += b) batches.push(l.slice(i, i + b))`
(undefined for a non-positive batch size, which the page never uses:
`BATCH_SIZE` is 20). -/
def mkBatches (b : Nat) (l : List α) : List (List α) :=
  if b = 0 then [] else mkBatchesAux b l.length l

/-- The batch loop of `runEvaluation` (`src/app/page.tsx`, lines 135–169):
each batch is posted to `/api/evaluate` through `transport`; on success the
returned results are appended to `allResults`, on transport failure the
batch is skipped (the `catch` only logs). -/
def runEvaluationResults
    (transport : List Joined → Option (List EvaluationResult))
    (records : List Joined) : List EvaluationResult :=
  (mkBatches BATCH_SIZE records).foldl
    (fun acc b =>
      match transport b with
      | some rs => acc ++ rs
      | none => acc) []

/-- Control-flow outcome of the `runEvaluation` variant of
`src/unnamed/part_003` (lines 219–260): early return on empty input,
return to the `KPI_CONFIG` phase when the batch loop collected zero
results, otherwise the results are stored and the flow proceeds to
`RESULTS`. -/
inductive RunOutcome where
  | noInput
  | backToConfig
  | results (rs : List EvaluationResult)
deriving DecidableEq, Repr

/-- The `runEvaluation` flow of `src/unnamed/part_003` (non-project
branch): `if (!mergedData || mergedData.length === 0) return;` then the
batch loop, then the zero-results branch `if (allResults.length === 0)
{ setPhase('KPI_CONFIG'); return; }`, else `setEvaluationResults`. -/
def runEvaluationFlow
    (transport : List Joined → Option (List EvaluationResult))
    (records : List Joined) : RunOutcome :=
  if records.isEmpty then .noInput
  else
    let allResults := runEvaluationResults transport records
    if allResults.isEmpty then .backToConfig
    else .results allResults

/-- The demo-mode explanation table of `generateDemoScores`
(`src/app/api/evaluate/route.ts`, lines 18–25), keyed by score. -/
def demoExplanations : Nat → List String
  | 5 => ["Excellent quality output", "Meets all criteria optimally",
          "Outstanding performance"]
  | 4 => ["Good quality with minor issues", "Solid performance overall",
          "Above average output"]
  | 3 => ["Acceptable but needs improvement", "Meets basic requirements",
          "Average quality"]
  | 2 => ["Below expectations", "Multiple issues detected",
          "Needs significant work"]
  | 1 => ["Critical failure detected", "Does not meet requirements",
          "Major quality issues"]
  | _ => []

/-- The weight table of `generateDemoScores`
(`const weights = [0.05, 0.15, 0.35, 0.30, 0.15]`). -/
def demoWeights : List ℚ := [0.05, 0.15, 0.35, 0.30, 0.15]

/-- The weighted-score loop of `generateDemoScores`: starting from
`score = 3`, walk the cumulative weights and take `i + 1` at the first
index where `random < cumulative`. -/
def pickScoreAux (r : ℚ) : ℚ → Nat → List ℚ → Nat
  | _, _, [] => 3
  | cum, i, w :: ws =>
    if r < cum + w then i + 1 else pickScoreAux r (cum + w) (i + 1) ws

/-- The weighted random score of `generateDemoScores` for one draw. -/
def pickScore (r : ℚ) : Nat :=
  pickScoreAux r 0 0 demoWeights

/-- `generateDemoScores` (`src/app/api/evaluate/route.ts`, lines 18–44):
one entry per KPI; the two `Math.random()` calls per KPI are abstracted as
the oracle `draw` giving the pair of draws for the KPI at each position.
The explanation is `expArray[Math.floor(random * expArray.length)]`
(an out-of-range index would give `undefined`, modelled by `""`). -/
def generateDemoScores (kpis : List KPI) (draw : Nat → ℚ × ℚ) :
    List ScoreEntry :=
  kpis.enum.map (fun p =>
    let r1 := (draw p.1).1
    let r2 := (draw p.1).2
    let score := pickScore r1
    let expArray := demoExplanations score
    let explanation := expArray.getD (⌊r2 * (expArray.length : ℚ)⌋.toNat) ""
    ⟨p.2.id, (score : ℚ), explanation⟩)

/-- The demo-mode branch of the `/api/evaluate` POST handler (lines
46–58): with no `ANTHROPIC_API_KEY` configured, every batch record gets
`{ msid: source.MSID, scores: generateDemoScores(kpis) }`; the draw
oracle is indexed by record position then KPI position. -/
def evaluateBatchDemoPOST (batch : List Joined) (kpis : List KPI)
    (draw : Nat → Nat → ℚ × ℚ) : List EvaluationResult :=
  batch.enum.map (fun p =>
    { msid := msid p.2.1, scores := generateDemoScores kpis (draw p.1) })

/-- The score collection of the `/api/generate-summary` POST handler
(lines 20–27): for each result take the first score entry matching the
KPI (`find`), default `0` when absent (`?.score || 0` also turns a stored
`0` into `0`), then keep only strictly positive scores. -/
def summaryScores (results : List EvaluationResult) (kpiId : Nat) : List ℚ :=
  (results.map (fun r =>
    ((r.scores.find? (fun s => s.kpiId == kpiId)).map (fun s => s.score)).getD 0)).filter
    (fun s => 0 < s)

/-- The `averageScore` of the `/api/generate-summary` POST handler (lines
25–27): mean of the collected positive scores, `0` when there are none. -/
def averageScore (results : List EvaluationResult) (kpiId : Nat) : ℚ :=
  let scores := summaryScores results kpiId
  if 0 < scores.length then scores.sum / (scores.length : ℚ) else 0

/-- The score collection of `summaryStats` in
`src/components/ResultsDisplay.tsx` (lines 36–39): flat-map every score
entry matching the KPI across all results, then keep the strictly
positive scores. -/
def displayScores (results : List EvaluationResult) (kpiId : Nat) : List ℚ :=
  ((results.flatMap (fun r => r.scores.filter (fun s => s.kpiId == kpiId))).map
    (fun s => s.score)).filter (fun s => 0 < s)

/-- The `(mean, median, count)` triple of `summaryStats`
(`src/components/ResultsDisplay.tsx`, lines 41–50): all zero when no
positive score exists; otherwise mean, and median by the sorted
even/odd midpoint rule. -/
def summaryStatsFor (results : List EvaluationResult) (kpiId : Nat) :
    ℚ × ℚ × Nat :=
  let scores := displayScores results kpiId
  if scores.length = 0 then (0, 0, 0)
  else
    let mean := scores.sum / (scores.length : ℚ)
    let sorted := scores.mergeSort (fun a b => a ≤ b)
    let mid := sorted.length / 2
    let median :=
      if sorted.length % 2 ≠ 0 then sorted.getD mid 0
      else (sorted.getD (mid - 1) 0 + sorted.getD mid 0) / 2
    (mean, median, scores.length)

/-- `getStatusText` (`src/components/ResultsDisplay.tsx`, lines 114–119):
the status-badge classifier with thresholds 4.5 / 3.5 / 2.5. -/
def getStatusText (score : ℚ) : String :=
  if score ≥ 4.5 then "OPTIMAL"
  else if score ≥ 3.5 then "GOOD"
  else if score ≥ 2.5 then "MARGINAL"
  else "CRITICAL"

/-- `getExplanationForScore` (`src/unnamed/part_006`, lines 14–25): the
fallback summary-explanation classifier with band boundaries 4 / 3 / 2. -/
def getExplanationForScore (average : ℚ) : String :=
  if average ≥ 4 then
    "Performance meets optimal standards. Quality targets achieved."
  else if average ≥ 3 then
    "Acceptable performance with room for improvement."
  else if average ≥ 2 then
    "Below threshold. Review and remediation recommended."
  else
    "Critical issues detected. Immediate attention required."

/-- `updateEvaluationResult` (`src/lib/store.ts`, lines 139–143): the new
result list is `state.evaluationResults?.map(r => r.msid === msid ?
result : r) ?? [result]` — entries whose `msid` matches are replaced;
when the stored list is `null` the new result becomes a singleton. -/
def updateEvaluationResult (current : Option (List EvaluationResult))
    (ms : Value) (result : EvaluationResult) : List EvaluationResult :=
  match current with
  | some l => l.map (fun r => if r.msid == ms then result else r)
  | none => [result]

/-- Modelled from the spec: the parity-error enumeration order it
prescribes — every offending key tagged with the side it is missing from,
sorted by first occurrence in the union of both sides (all source rows
followed by all target rows, keeping first occurrences). Used to compare
the code's details list against the spec's ordering. -/
def parityDetailsSpec (src tgt : List Row) : List MissingEntry :=
  (dedupFirst (src.map msid ++ tgt.map msid)).filterMap (fun k =>
    if !(keysOf tgt).contains k then some ⟨k, .target⟩
    else if !(keysOf src).contains k then some ⟨k, .source⟩
    else none)

/-! Concrete fixtures used by witness and counterexample theorems. -/

/-- A target row with the key column, for the missing-key counterexample. -/
def tgtRowEx : Row := [("MSID", some "A")]

/-- Example KPI with id 1. -/
def kpiEx1 : KPI := ⟨1, "Accuracy", "Good output is accurate", "ACC"⟩

/-- Example KPI with id 2. -/
def kpiEx2 : KPI := ⟨2, "Tone", "Good output is polite", "TONE"⟩

/-- Example source row with key A. -/
def srcRowA : Row := [("MSID", some "A"), ("text", some "src-a")]

/-- Example source row with key B. -/
def srcRowB : Row := [("MSID", some "B"), ("text", some "src-b")]

/-- Example target row with key A. -/
def tgtRowA : Row := [("MSID", some "A"), ("text", some "tgt-a")]

/-- Example target row with key B. -/
def tgtRowB : Row := [("MSID", some "B"), ("text", some "tgt-b")]

/-- Example joined record with key A. -/
def joinedA : Joined := (srcRowA, tgtRowA)

/-- Example joined record with key B. -/
def joinedB : Joined := (srcRowB, tgtRowB)

/-- Example result: score 4 on KPI 1. -/
def resEx4 : EvaluationResult := ⟨some "1", [⟨1, 4, "Good"⟩]⟩

/-- Example result: failed record, score 0 on KPI 1. -/
def resEx0 : EvaluationResult := ⟨some "2", [⟨1, 0, "Evaluation failed"⟩]⟩

/-- Example result: score 5 on KPI 1. -/
def resEx5 : EvaluationResult := ⟨some "3", [⟨1, 5, "Great"⟩]⟩

/-- Example stored result for msid A. -/
def resA : EvaluationResult := ⟨some "A", [⟨1, 3, "old"⟩]⟩

/-- Example re-evaluation result for msid B. -/
def resB : EvaluationResult := ⟨some "B", [⟨1, 5, "new"⟩]⟩

/-- A minimal row holding only the key column. -/
def keyRow (k : String) : Row := [("MSID", some k)]

/-- Parity example: source rows with keys A, B, C. -/
def srcParity : List Row := [keyRow "A", keyRow "B", keyRow "C"]

/-- Parity example: target rows with keys B, C, D. -/
def tgtParity : List Row := [keyRow "B", keyRow "C", keyRow "D"]

/-- A transport stub that fails for every batch (network-level failure /
non-ok response for every `/api/evaluate` call). -/
def failTransport : List Joined → Option (List EvaluationResult) :=
  fun _ => none

/-- An evaluator stub that succeeds on every record. -/
def evalOk : Joined → Option (List ScoreEntry) :=
  fun _ => some [⟨1, 4, "ok"⟩, ⟨2, 5, "fine"⟩]

/-- An evaluator stub that errors exactly on the record `joinedB`. -/
def evalFailB : Joined → Option (List ScoreEntry) :=
  fun r => if r = joinedB then none else evalOk r

/-- A `Math.random()` oracle that always draws 1/2. -/
def demoDrawHalf : Nat → Nat → ℚ × ℚ :=
  fun _ _ => (1/2, 1/2)

/-!
## Fuel and batching lemmas
-/

/-- `mkBatchesAux` does not depend on the fuel once it is at least the
list length (assuming a positive batch size). -/
theorem mkBatchesAux_fuel (b : Nat) (hb : b ≠ 0) :
    ∀ (n m : Nat) (l : List α), l.length ≤ n → l.length ≤ m →
      mkBatchesAux b n l = mkBatchesAux b m l := by
  intro n
  induction n with
  | zero =>
    intro m l hn _
    have hl : l = [] := List.eq_nil_of_length_eq_zero (Nat.le_zero.mp hn)
    subst hl
    cases m <;> rfl
  | succ n ih =>
    intro m l hn hm
    cases l with
    | nil => cases m <;> rfl
    | cons x xs =>
      cases m with
      | zero => simp at hm
      | succ m =>
        simp only [mkBatchesAux]
        congr 1
        have hlen : ((x :: xs).drop b).length = xs.length + 1 - b := by
          simp [List.length_drop]
        have hb1 : 1 ≤ b := Nat.one_le_iff_ne_zero.mpr hb
        simp only [List.length_cons] at hn hm
        exact ih m _ (by omega) (by omega)

/-- `mkBatches` on the empty list. -/
theorem mkBatches_nil (b : Nat) : mkBatches b ([] : List α) = [] := by
  unfold mkBatches
  split <;> rfl

/-- The natural recursion of `mkBatches`: the first `b` elements form the
first batch, the rest are batched recursively. -/
theorem mkBatches_cons (b : Nat) (hb : b ≠ 0) (x : α) (xs : List α) :
    mkBatches b (x :: xs) =
      (x :: xs).take b :: mkBatches b ((x :: xs).drop b) := by
  unfold mkBatches
  rw [if_neg hb, if_neg hb]
  show mkBatchesAux b (xs.length + 1) (x :: xs) = _
  simp only [mkBatchesAux]
  congr 1
  have hb1 : 1 ≤ b := Nat.one_le_iff_ne_zero.mpr hb
  exact mkBatchesAux_fuel b hb _ _ _ (by simp [List.length_drop]; omega) le_rfl

/-- Concatenating the batches gives back the original list: batching
loses no record and preserves order. -/
theorem mkBatches_flatten (b : Nat) (hb : b ≠ 0) (l : List α) :
    (mkBatches b l).flatten = l := by
  suffices h : ∀ (n : Nat) (l : List α), l.length = n →
      (mkBatches b l).flatten = l from h _ l rfl
  intro n
  induction n using Nat.strong_induction_on with
  | _ n ih =>
    intro l hn
    cases l with
    | nil => simp [mkBatches_nil]
    | cons x xs =>
      have hb1 : 1 ≤ b := Nat.one_le_iff_ne_zero.mpr hb
      have hlt : ((x :: xs).drop b).length < n := by
        subst hn
        simp only [List.length_drop, List.length_cons]
        omega
      rw [mkBatches_cons b hb, List.flatten_cons, ih _ hlt _ rfl,
        List.take_append_drop]

/-- The batch loop of `runEvaluation` collects exactly the results of the
batches whose transport call succeeded, in batch order; failed batches
contribute nothing. -/
theorem runEvaluationResults_eq
    (transport : List Joined → Option (List EvaluationResult))
    (records : List Joined) :
    runEvaluationResults transport records =
      ((mkBatches BATCH_SIZE records).filterMap transport).flatten := by
  unfold runEvaluationResults
  generalize mkBatches BATCH_SIZE records = bs
  suffices h : ∀ (bs : List (List Joined)) (acc : List EvaluationResult),
      bs.foldl (fun acc b =>
        match transport b with
        | some rs => acc ++ rs
        | none => acc) acc = acc ++ (bs.filterMap transport).flatten by
    simpa using h bs []
  intro bs
  induction bs with
  | nil => simp
  | cons b bs ih =>
    intro acc
    cases hb : transport b <;>
      simp [hb, ih, List.filterMap_cons, List.append_assoc]

/-!
## C1 — bulk run: one result per record, batch-failure behavior

The claim states that when a whole batch's transport call fails, every
record of that batch still appears in the output with the fallback
result. In the code the `catch` branch of the batch loop only logs the
error: the failed batch's records are dropped from `allResults` entirely
and no fallback is substituted client-side.
-/

/-- C1 (counterexample): a one-record input whose single batch transport
call fails produces an *empty* output — the record does not appear with a
fallback result, refuting the claim. -/
theorem runEvaluation_batchFailure_cex :
    runEvaluationResults failTransport [joinedA] = [] ∧
    ([joinedA] : List Joined).length = 1 := by
  constructor
  · rw [runEvaluationResults_eq]
    rw [show mkBatches BATCH_SIZE [joinedA] = [[joinedA]] from by decide]
    rfl
  · rfl

/-- C1 (amended): the run returns the concatenation, in batch order, of
the results of exactly those batches whose transport call succeeded (a
failed batch's records are dropped, with no fallback substitution); in
particular when every batch call succeeds and the server behaves as the
`/api/evaluate` POST handler, the run returns exactly one
`EvaluationResult` per input record, in submission order, each carrying
the record's source `MSID`. -/
theorem runEvaluation_per_record
    (transport : List Joined → Option (List EvaluationResult))
    (evalF : Joined → Option (List ScoreEntry))
    (kpis : List KPI) (records : List Joined) :
    runEvaluationResults transport records =
      ((mkBatches BATCH_SIZE records).filterMap transport).flatten ∧
    runEvaluationResults
        (fun b => some (evaluateBatchPOST evalF b kpis)) records =
      evaluateBatchPOST evalF records kpis ∧
    (runEvaluationResults
        (fun b => some (evaluateBatchPOST evalF b kpis)) records).length =
      records.length ∧
    (runEvaluationResults
        (fun b => some (evaluateBatchPOST evalF b kpis)) records).map
        (fun res => res.msid) =
      records.map (fun rec => msid rec.1) := by
  have hmain : runEvaluationResults
      (fun b => some (evaluateBatchPOST evalF b kpis)) records =
      evaluateBatchPOST evalF records kpis := by
    rw [runEvaluationResults_eq]
    have hfm : (mkBatches BATCH_SIZE records).filterMap
        (fun b => some (evaluateBatchPOST evalF b kpis)) =
        (mkBatches BATCH_SIZE records).map
          (fun b => evaluateBatchPOST evalF b kpis) := by
      induction mkBatches BATCH_SIZE records with
      | nil => rfl
      | cons b bs ih => simp [List.filterMap_cons, ih]
    rw [hfm]
    unfold evaluateBatchPOST
    rw [← List.map_flatten, mkBatches_flatten BATCH_SIZE (by decide)]
  refine ⟨runEvaluationResults_eq transport records, hmain, ?_, ?_⟩
  · rw [hmain]; simp [evaluateBatchPOST]
  · rw [hmain]; simp [evaluateBatchPOST]

/-!
## C2 — per-record fallback inside a batch
-/

/-- C2: if the evaluator errors (or returns an unparseable response,
both modelled by `none`) for one record `R` of a batch, the
`/api/evaluate` POST handler still returns one result per submitted
record; the result at each position holding `R` is one
`{kpiId, score: 0, explanation: 'Evaluation failed'}` entry per requested
KPI, and the result at every other position is exactly what it would have
been under an evaluator that does not fail on `R`. -/
theorem evaluateBatch_fallback_frame
    (e e2 : Joined → Option (List ScoreEntry)) (batch : List Joined)
    (kpis : List KPI) (R : Joined)
    (hagree : ∀ r : Joined, r ≠ R → e2 r = e r) (hfail : e2 R = none) :
    (evaluateBatchPOST e2 batch kpis).length = batch.length ∧
    (∀ (i : Nat), batch[i]? = some R →
      (evaluateBatchPOST e2 batch kpis)[i]? =
        some ⟨msid R.1, fallbackScores kpis⟩) ∧
    (∀ (i : Nat) (r : Joined), batch[i]? = some r → r ≠ R →
      (evaluateBatchPOST e2 batch kpis)[i]? =
        (evaluateBatchPOST e batch kpis)[i]?) := by
  refine ⟨by simp [evaluateBatchPOST], ?_, ?_⟩
  · intro i hi
    simp [evaluateBatchPOST, List.getElem?_map, hi, hfail]
  · intro i r hi hne
    simp [evaluateBatchPOST, List.getElem?_map, hi, hagree r hne]

/-- C2 (witness): in the concrete batch `[joinedA, joinedB]` with two
KPIs, an evaluator failing exactly on `joinedB` still yields two results;
position 1 is the all-zero fallback for `joinedB` and position 0 is
unaffected. -/
theorem evaluateBatch_fallback_frame_witness :
    (evaluateBatchPOST evalFailB [joinedA, joinedB] [kpiEx1, kpiEx2]).length
      = 2 ∧
    (evaluateBatchPOST evalFailB [joinedA, joinedB] [kpiEx1, kpiEx2])[1]? =
      some ⟨msid joinedB.1, fallbackScores [kpiEx1, kpiEx2]⟩ ∧
    (evaluateBatchPOST evalFailB [joinedA, joinedB] [kpiEx1, kpiEx2])[0]? =
      (evaluateBatchPOST evalOk [joinedA, joinedB] [kpiEx1, kpiEx2])[0]? := by
  have h := evaluateBatch_fallback_frame evalOk evalFailB
    [joinedA, joinedB] [kpiEx1, kpiEx2] joinedB
    (fun r hr => by simp [evalFailB, hr]) (by simp [evalFailB])
  exact ⟨h.1, h.2.1 1 (by decide), h.2.2 0 joinedA (by decide) (by decide)⟩

/-!
## C3 — a non-empty input never silently yields an empty result set

In the `src/unnamed/part_003` page variant, a non-empty merged input whose
batch loop collected zero results makes `runEvaluation` reset the phase to
`KPI_CONFIG` and return without storing results — a control-flow outcome
distinct from presenting an (empty) result set.
-/

/-- C3: the bulk-run flow never stores an empty result set: an empty
input early-returns (`noInput`), a non-empty input whose batch loop
collected zero results is routed to the distinct `backToConfig` outcome
instead of an ordinary (empty) result set, and whenever results are
stored they are non-empty. -/
theorem runEvaluationFlow_empty_distinct
    (transport : List Joined → Option (List EvaluationResult))
    (records : List Joined) :
    (records = [] → runEvaluationFlow transport records = .noInput) ∧
    (records ≠ [] → runEvaluationResults transport records = [] →
      runEvaluationFlow transport records = .backToConfig) ∧
    (∀ rs : List EvaluationResult,
      runEvaluationFlow transport records = .results rs → rs ≠ []) := by
  refine ⟨?_, ?_, ?_⟩
  · intro h
    simp [runEvaluationFlow, h]
  · intro hne hres
    simp [runEvaluationFlow, List.isEmpty_iff, hne, hres]
  · intro rs hrs
    simp only [runEvaluationFlow] at hrs
    by_cases h1 : records.isEmpty
    · rw [if_pos h1] at hrs
      cases hrs
    · rw [if_neg h1] at hrs
      by_cases h2 : (runEvaluationResults transport records).isEmpty
      · rw [if_pos h2] at hrs
        cases hrs
      · rw [if_neg h2] at hrs
        cases hrs
        intro hc
        exact h2 (by simp [hc])

/-- C3 (witness): with every transport call failing, the one-record input
`[joinedA]` is routed to the `backToConfig` outcome, and the empty input
to `noInput`. -/
theorem runEvaluationFlow_empty_distinct_witness :
    runEvaluationFlow failTransport [joinedA] = .backToConfig ∧
    runEvaluationFlow failTransport [] = .noInput := by
  have h1 := runEvaluationFlow_empty_distinct failTransport [joinedA]
  have h2 := runEvaluationFlow_empty_distinct failTransport []
  exact ⟨h1.2.1 (by decide) (by decide), h2.1 rfl⟩

/-!
## C7 — MissingKeyColumn characterization

The claim states that an empty row set skips the key-presence check. In
the code `sourceHasMSID = sourceData.length > 0 && 'MSID' in
sourceData[0]` is `false` for an empty set, so an empty set *fails* the
check and triggers `MISSING_MSID_COLUMN`.
-/

/-- C7 (counterexample): with an empty source row set and a target row
set whose first row has the `MSID` column, `validateAndMergeData` fails
with `MISSING_MSID_COLUMN` naming the source side — the key-presence
check is *not* skipped for an empty row set, refuting the claim. -/
theorem missingKey_emptySource_cex :
    validateAndMergeData [] [tgtRowEx] = .missingKey .source ∧
    rowHas tgtRowEx "MSID" = true := by
  decide

/-- C7 (amended): `MISSING_MSID_COLUMN` occurs exactly when a row set is
empty or its first row lacks the key column; the error names the source
side when the source set fails the check (even if both fail), and the
target side when only the target set fails. -/
theorem missingKey_characterization (src tgt : List Row) :
    (validateAndMergeData src tgt = .missingKey .source ↔
      hasKeyCol src = false) ∧
    (validateAndMergeData src tgt = .missingKey .target ↔
      (hasKeyCol src = true ∧ hasKeyCol tgt = false)) ∧
    (hasKeyCol src = false ↔
      (src = [] ∨ ∃ r rest, src = r :: rest ∧ rowHas r "MSID" = false)) := by
  refine ⟨?_, ?_, ?_⟩
  · unfold validateAndMergeData
    cases hs : hasKeyCol src <;> cases ht : hasKeyCol tgt <;> simp
    split <;> simp
  · unfold validateAndMergeData
    cases hs : hasKeyCol src <;> cases ht : hasKeyCol tgt <;> simp
    split <;> simp
  · cases src with
    | nil => simp [hasKeyCol]
    | cons r rest =>
      simp only [hasKeyCol, List.cons.injEq]
      constructor
      · intro h
        exact Or.inr ⟨r, rest, ⟨rfl, rfl⟩, h⟩
      · rintro (h | ⟨r2, rest2, ⟨rfl, rfl⟩, h⟩)
        · exact absurd h (List.cons_ne_nil r rest)
        · exact h

/-!
## C8 — the two score classifiers
-/

/-- C8: the status classifier `getStatusText` and the explanation-band
classifier `getExplanationForScore` have exactly the stated thresholds
(4.5 / 3.5 / 2.5 versus 4 / 3 / 2), and at an average of `3.0` they
diverge: status `MARGINAL` versus the "acceptable" band. -/
theorem classifiers_thresholds (s : ℚ) :
    (getStatusText s = "OPTIMAL" ↔ 4.5 ≤ s) ∧
    (getStatusText s = "GOOD" ↔ 3.5 ≤ s ∧ s < 4.5) ∧
    (getStatusText s = "MARGINAL" ↔ 2.5 ≤ s ∧ s < 3.5) ∧
    (getStatusText s = "CRITICAL" ↔ s < 2.5) ∧
    (getExplanationForScore s =
        "Performance meets optimal standards. Quality targets achieved." ↔
      4 ≤ s) ∧
    (getExplanationForScore s =
        "Acceptable performance with room for improvement." ↔
      3 ≤ s ∧ s < 4) ∧
    (getExplanationForScore s =
        "Below threshold. Review and remediation recommended." ↔
      2 ≤ s ∧ s < 3) ∧
    (getExplanationForScore s =
        "Critical issues detected. Immediate attention required." ↔
      s < 2) ∧
    getStatusText 3 = "MARGINAL" ∧
    getExplanationForScore 3 =
      "Acceptable performance with room for improvement." := by
  unfold getStatusText getExplanationForScore
  refine ⟨?_, ?_, ?_, ?_, ?_, ?_, ?_, ?_, by norm_num, by norm_num⟩ <;>
    split_ifs <;> simp_all [ge_iff_le] <;> intros <;> linarith

/-!
## C9 — the re-evaluation splice

The claim states that when no stored entry has the given `msid`, the new
result is appended. The code maps over the stored list, so a non-empty
list without a matching `msid` is returned unchanged: nothing is
appended. The `?? [result]` fallback only applies when the stored list is
`null`.
-/

/-- C9 (counterexample): splicing a result for msid `B` into the stored
list `[resA]` (which has no entry for `B`) leaves the list unchanged —
the new result is *not* appended, refuting the claim. -/
theorem updateEvaluationResult_no_append_cex :
    updateEvaluationResult (some [resA]) (some "B") resB = [resA] ∧
    updateEvaluationResult (some [resA]) (some "B") resB ≠ [resA, resB] := by
  decide

/-- C9 (amended): the splice replaces every stored entry whose `msid`
matches and leaves all other entries unchanged, preserving order and
length; when no entry matches, the stored list is returned unchanged (the
new result is not appended); only when no result list is stored at all
does the new result become the singleton list. -/
theorem updateEvaluationResult_splice (l : List EvaluationResult)
    (ms : Value) (res : EvaluationResult) :
    (updateEvaluationResult (some l) ms res).length = l.length ∧
    (∀ (i : Nat) (r : EvaluationResult), l[i]? = some r →
      (updateEvaluationResult (some l) ms res)[i]? =
        some (if r.msid = ms then res else r)) ∧
    ((∀ r ∈ l, r.msid ≠ ms) → updateEvaluationResult (some l) ms res = l) ∧
    updateEvaluationResult none ms res = [res] := by
  refine ⟨?_, ?_, ?_, rfl⟩
  · simp [updateEvaluationResult]
  · intro i r hr
    simp [updateEvaluationResult, List.getElem?_map, hr, beq_iff_eq]
  · intro h
    simp only [updateEvaluationResult]
    rw [List.map_congr_left (fun r hr => ?_), List.map_id]
    simp [beq_iff_eq, h r hr]

/-- C9 (witness): the amended splice theorem applied to the stored list
`[resA]` and a result for the unmatched msid `B`: the list is unchanged;
with no stored list the result becomes a singleton. -/
theorem updateEvaluationResult_splice_witness :
    updateEvaluationResult (some [resA]) (some "B") resB = [resA] ∧
    updateEvaluationResult none (some "B") resB = [resB] := by
  have h := updateEvaluationResult_splice [resA] (some "B") resB
  exact ⟨h.2.2.1 (by decide), h.2.2.2⟩

/-!
## C4 — averages exclude failed (score-0) entries
-/

/-- A list of length at most one containing `x` is exactly `[x]`. -/
theorem eq_singleton_of_length_le_one {α : Type _} {l : List α} {x : α}
    (hlen : l.length ≤ 1) (hx : x ∈ l) : l = [x] := by
  cases l with
  | nil => cases hx
  | cons a t =>
    cases t with
    | nil =>
      cases hx with
      | head => rfl
      | tail _ h => cases h
    | cons b t2 => simp at hlen

/-- Per-result agreement between the `find?`-based collection of the
summary route and the `filter`-based collection of the results display,
for a result whose score list has at most one entry per KPI. -/
theorem find_contribution_eq (scores : List ScoreEntry) (kpiId : Nat)
    (hwf : (scores.filter (fun s => s.kpiId == kpiId)).length ≤ 1) :
    (if 0 < ((scores.find? (fun s => s.kpiId == kpiId)).map
        (fun s => s.score)).getD 0 then
      [((scores.find? (fun s => s.kpiId == kpiId)).map
        (fun s => s.score)).getD 0]
    else []) =
      ((scores.filter (fun s => s.kpiId == kpiId)).map
        (fun s => s.score)).filter (fun s => decide (0 < s)) := by
  cases hfind : scores.find? (fun s => s.kpiId == kpiId) with
  | none =>
    have hfil : scores.filter (fun s => s.kpiId == kpiId) = [] := by
      rw [List.filter_eq_nil_iff]
      intro a ha
      exact List.find?_eq_none.mp hfind a ha
    simp [hfil]
  | some s0 =>
    have hp : (fun s => s.kpiId == kpiId) s0 = true :=
      @List.find?_some ScoreEntry (fun s => s.kpiId == kpiId) s0 scores hfind
    have hmem : s0 ∈ scores.filter (fun s => s.kpiId == kpiId) :=
      List.mem_filter.mpr ⟨List.mem_of_find?_eq_some hfind, hp⟩
    rw [eq_singleton_of_length_le_one hwf hmem]
    by_cases hpos : 0 < s0.score <;> simp [hpos]

/-- Under the one-entry-per-KPI invariant, the summary route and the
results display collect the same positive scores. -/
theorem summaryScores_eq_displayScores (results : List EvaluationResult)
    (kpiId : Nat)
    (hwf : ∀ r ∈ results,
      (r.scores.filter (fun s => s.kpiId == kpiId)).length ≤ 1) :
    summaryScores results kpiId = displayScores results kpiId := by
  induction results with
  | nil => rfl
  | cons r rest ih =>
    have hr := hwf r (by simp)
    have hrest := ih (fun x hx => hwf x (List.mem_cons_of_mem r hx))
    have hstep := find_contribution_eq r.scores kpiId hr
    simp only [summaryScores, displayScores, List.map_cons,
      List.filter_cons, List.flatMap_cons, List.map_append,
      List.filter_append] at *
    rw [← hrest, ← hstep]
    by_cases hpos :
        (0 : ℚ) < ((r.scores.find? (fun s => s.kpiId == kpiId)).map
          (fun s => s.score)).getD 0 <;>
      simp [hpos, summaryScores]

/-- C4: the per-KPI `averageScore` of the summary route equals the sum of
that KPI's strictly positive scores (as collected by the results display:
all matching entries with `score > 0`, score-0 failures excluded) divided
by their count, and equals `0` when no positive score exists; the mean
shown by the results display agrees with it. Stated for result sets with
at most one score entry per KPI per record (the data-model invariant). -/
theorem averageScore_excludes_failures (results : List EvaluationResult)
    (kpiId : Nat)
    (hwf : ∀ r ∈ results,
      (r.scores.filter (fun s => s.kpiId == kpiId)).length ≤ 1) :
    (displayScores results kpiId = [] → averageScore results kpiId = 0) ∧
    (displayScores results kpiId ≠ [] →
      averageScore results kpiId =
        (displayScores results kpiId).sum /
          ((displayScores results kpiId).length : ℚ)) ∧
    (summaryStatsFor results kpiId).1 = averageScore results kpiId := by
  have heq := summaryScores_eq_displayScores results kpiId hwf
  refine ⟨?_, ?_, ?_⟩
  · intro hnil
    simp [averageScore, heq, hnil]
  · intro hne
    have hpos : 0 < (displayScores results kpiId).length :=
      List.length_pos.mpr hne
    simp [averageScore, heq, hpos]
  · by_cases hnil : displayScores results kpiId = []
    · simp [summaryStatsFor, averageScore, heq, hnil]
    · have hpos : 0 < (displayScores results kpiId).length :=
        List.length_pos.mpr hnil
      have hpos2 : (displayScores results kpiId).length ≠ 0 :=
        Nat.pos_iff_ne_zero.mp hpos
      simp [summaryStatsFor, averageScore, heq, hpos, hpos2]

/-- C4 (witness): for scores `[4, 0, 5]` on KPI 1 (the `0` being a failed
record), the collected positive scores are `[4, 5]` and the average is
`4.5`, not `3.0`. -/
theorem averageScore_excludes_failures_witness :
    averageScore [resEx4, resEx0, resEx5] 1 =
      (displayScores [resEx4, resEx0, resEx5] 1).sum /
        ((displayScores [resEx4, resEx0, resEx5] 1).length : ℚ) ∧
    displayScores [resEx4, resEx0, resEx5] 1 = [4, 5] ∧
    averageScore [resEx4, resEx0, resEx5] 1 = 9 / 2 := by
  refine ⟨(averageScore_excludes_failures [resEx4, resEx0, resEx5] 1
    (by decide)).2.1 (by decide), by decide, ?_⟩
  have hs : summaryScores [resEx4, resEx0, resEx5] 1 = [4, 5] := by decide
  simp [averageScore, hs]
  norm_num

/-!
## C10 — demo mode is indistinguishable from an all-successful run
-/

/-- The weighted-score loop of demo mode only ever produces scores 1–5
(the default `3` included). -/
theorem pickScore_range (r : ℚ) : 1 ≤ pickScore r ∧ pickScore r ≤ 5 := by
  simp only [pickScore, demoWeights, pickScoreAux]
  split_ifs <;> omega

/-- For scores 1–5 the demo explanation table has three entries, all
non-empty and none equal to the failure sentinel text. -/
theorem demoExplanations_spec (n : Nat) (h1 : 1 ≤ n) (h5 : n ≤ 5) :
    (demoExplanations n).length = 3 ∧
    ∀ e ∈ demoExplanations n, e ≠ "" ∧ e ≠ "Evaluation failed" := by
  interval_cases n <;> exact ⟨rfl, by decide⟩

/-- `Math.floor(random * m)` lies below `m` for a draw in `[0, 1)`. -/
theorem floor_toNat_lt (r : ℚ) (h0 : 0 ≤ r) (h1 : r < 1) (m : Nat)
    (hm : 0 < m) : (⌊r * (m : ℚ)⌋).toNat < m := by
  have hge : (0 : ℤ) ≤ ⌊r * (m : ℚ)⌋ :=
    Int.floor_nonneg.mpr (mul_nonneg h0 (by positivity))
  have hmq : (0 : ℚ) < (m : ℚ) := by exact_mod_cast hm
  have hlt : ⌊r * (m : ℚ)⌋ < (m : ℤ) := by
    apply Int.floor_lt.mpr
    push_cast
    nlinarith
  omega

/-- Demo scores: one entry per KPI in order, carrying the KPI's id, an
integer score in 1–5 and a non-empty explanation that is never the
failure sentinel. -/
theorem generateDemoScores_spec (kpis : List KPI) (draw : Nat → ℚ × ℚ)
    (hdraw : ∀ j, 0 ≤ (draw j).2 ∧ (draw j).2 < 1) :
    (generateDemoScores kpis draw).length = kpis.length ∧
    ∀ (j : Nat) (kpi : KPI), kpis[j]? = some kpi →
      ∃ se : ScoreEntry, (generateDemoScores kpis draw)[j]? = some se ∧
        se.kpiId = kpi.id ∧
        (∃ n : Nat, se.score = (n : ℚ) ∧ 1 ≤ n ∧ n ≤ 5) ∧
        se.explanation ≠ "" ∧ se.explanation ≠ "Evaluation failed" := by
  constructor
  · simp [generateDemoScores]
  · intro j kpi hj
    have henum : (kpis.enum)[j]? = some (j, kpi) := by
      rw [List.getElem?_enum, hj]
      rfl
    have hrange := pickScore_range (draw j).1
    have hspec :=
      demoExplanations_spec (pickScore (draw j).1) hrange.1 hrange.2
    have hidx : (⌊(draw j).2 *
        ((demoExplanations (pickScore (draw j).1)).length : ℚ)⌋).toNat <
        (demoExplanations (pickScore (draw j).1)).length := by
      apply floor_toNat_lt _ (hdraw j).1 (hdraw j).2
      rw [hspec.1]
      omega
    have hmem : (demoExplanations (pickScore (draw j).1)).getD
        ((⌊(draw j).2 *
          ((demoExplanations (pickScore (draw j).1)).length : ℚ)⌋).toNat)
        "" ∈ demoExplanations (pickScore (draw j).1) := by
      rw [List.getD_eq_getElem _ _ hidx]
      exact List.getElem_mem hidx
    refine ⟨⟨kpi.id, ((pickScore (draw j).1 : Nat) : ℚ),
        (demoExplanations (pickScore (draw j).1)).getD
          ((⌊(draw j).2 *
            ((demoExplanations (pickScore (draw j).1)).length : ℚ)⌋).toNat)
          ""⟩,
      ?_, rfl, ⟨pickScore (draw j).1, rfl, hrange⟩,
      (hspec.2 _ hmem).1, (hspec.2 _ hmem).2⟩
    simp [generateDemoScores, List.getElem?_map, henum]

/-- C10: with no Evaluator credential configured, the demo branch of the
`/api/evaluate` POST handler returns one result per batch record in
submission order, keyed by the record's source `MSID`, whose scores hold
exactly one entry per requested KPI with an integer score in 1–5 and a
non-empty explanation — never the score-0 / 'Evaluation failed'
sentinel — for any `Math.random()` draws in `[0, 1)`. -/
theorem demoMode_indistinguishable (batch : List Joined) (kpis : List KPI)
    (draw : Nat → Nat → ℚ × ℚ)
    (hdraw : ∀ i j, 0 ≤ (draw i j).2 ∧ (draw i j).2 < 1) :
    (evaluateBatchDemoPOST batch kpis draw).length = batch.length ∧
    ∀ (i : Nat) (rec : Joined), batch[i]? = some rec →
      ∃ res : EvaluationResult,
        (evaluateBatchDemoPOST batch kpis draw)[i]? = some res ∧
        res.msid = msid rec.1 ∧
        res.scores.length = kpis.length ∧
        ∀ (j : Nat) (kpi : KPI), kpis[j]? = some kpi →
          ∃ se : ScoreEntry, res.scores[j]? = some se ∧
            se.kpiId = kpi.id ∧
            (∃ n : Nat, se.score = (n : ℚ) ∧ 1 ≤ n ∧ n ≤ 5) ∧
            se.explanation ≠ "" ∧ se.explanation ≠ "Evaluation failed" := by
  constructor
  · simp [evaluateBatchDemoPOST]
  · intro i rec hi
    have henum : (batch.enum)[i]? = some (i, rec) := by
      rw [List.getElem?_enum, hi]
      rfl
    have hgen := generateDemoScores_spec kpis (draw i) (hdraw i)
    exact ⟨⟨msid rec.1, generateDemoScores kpis (draw i)⟩,
      by simp [evaluateBatchDemoPOST, List.getElem?_map, henum], rfl,
      hgen.1, hgen.2⟩

/-- C10 (witness): the demo branch at the concrete one-record batch
`[joinedA]`, one KPI and constant draws of 1/2. -/
theorem demoMode_indistinguishable_witness :
    (evaluateBatchDemoPOST [joinedA] [kpiEx1] demoDrawHalf).length = 1 ∧
    ∃ res : EvaluationResult,
      (evaluateBatchDemoPOST [joinedA] [kpiEx1] demoDrawHalf)[0]? =
        some res ∧
      res.msid = msid joinedA.1 ∧
      res.scores.length = 1 ∧
      ∀ (j : Nat) (kpi : KPI), ([kpiEx1] : List KPI)[j]? = some kpi →
        ∃ se : ScoreEntry, res.scores[j]? = some se ∧
          se.kpiId = kpi.id ∧
          (∃ n : Nat, se.score = (n : ℚ) ∧ 1 ≤ n ∧ n ≤ 5) ∧
          se.explanation ≠ "" ∧ se.explanation ≠ "Evaluation failed" := by
  have h := demoMode_indistinguishable [joinedA] [kpiEx1] demoDrawHalf
    (fun i j => by norm_num [demoDrawHalf])
  exact ⟨h.1, h.2 0 joinedA rfl⟩

/-!
## Key-map and dedup lemmas for the join
-/

/-- `dedupFirstAux` does not depend on the fuel once it is at least the
list length. -/
theorem dedupFirstAux_fuel :
    ∀ (n m : Nat) (l : List Value), l.length ≤ n → l.length ≤ m →
      dedupFirstAux n l = dedupFirstAux m l := by
  intro n
  induction n with
  | zero =>
    intro m l hn _
    have hl : l = [] := List.eq_nil_of_length_eq_zero (Nat.le_zero.mp hn)
    subst hl
    cases m <;> rfl
  | succ n ih =>
    intro m l hn hm
    cases l with
    | nil => cases m <;> rfl
    | cons a t =>
      cases m with
      | zero => simp at hm
      | succ m =>
        simp only [dedupFirstAux]
        congr 1
        have hle : (t.filter (fun b => b ≠ a)).length ≤ t.length :=
          List.length_filter_le _ _
        simp only [List.length_cons] at hn hm
        exact ih m _ (by omega) (by omega)

/-- The natural recursion of `dedupFirst`: keep the head, dedup the tail
with all copies of the head removed. -/
theorem dedupFirst_cons (a : Value) (l : List Value) :
    dedupFirst (a :: l) = a :: dedupFirst (l.filter (fun b => b ≠ a)) := by
  unfold dedupFirst
  show dedupFirstAux (l.length + 1) (a :: l) = _
  simp only [dedupFirstAux]
  congr 1
  exact dedupFirstAux_fuel _ _ _ (List.length_filter_le _ _) le_rfl

/-- `dedupFirst` preserves membership. -/
theorem mem_dedupFirst (k : Value) (l : List Value) :
    k ∈ dedupFirst l ↔ k ∈ l := by
  suffices h : ∀ (n : Nat) (l : List Value), l.length = n →
      (k ∈ dedupFirst l ↔ k ∈ l) from h _ l rfl
  intro n
  induction n using Nat.strong_induction_on with
  | _ n ih =>
    intro l hn
    cases l with
    | nil => simp [dedupFirst, dedupFirstAux]
    | cons a t =>
      have hlt : (t.filter (fun b => b ≠ a)).length < n := by
        subst hn
        simp only [List.length_cons]
        exact Nat.lt_succ_of_le (List.length_filter_le _ _)
      rw [dedupFirst_cons]
      by_cases hk : k = a
      · simp [hk]
      · simp only [List.mem_cons, hk, false_or]
        rw [ih _ hlt _ rfl]
        simp [List.mem_filter, hk]

/-- Soundness of the key-map lookup: a hit is a row of the set carrying
the looked-up key. -/
theorem mapGet_sound (rows : List Row) (k : Value) (r2 : Row)
    (h : mapGet rows k = some r2) : msid r2 = k ∧ r2 ∈ rows := by
  induction rows with
  | nil => cases h
  | cons a rest ih =>
    simp only [mapGet] at h
    cases hrest : mapGet rest k with
    | some r3 =>
      rw [hrest] at h
      cases h
      have := ih hrest
      exact ⟨this.1, List.mem_cons_of_mem a this.2⟩
    | none =>
      rw [hrest] at h
      by_cases ha : msid a = k
      · rw [if_pos ha] at h
        injection h with h2
        subst h2
        exact ⟨ha, List.mem_cons_self a rest⟩
      · rw [if_neg ha] at h
        cases h

/-- Completeness of the key-map lookup: a miss means no row of the set
carries the key. -/
theorem mapGet_none (rows : List Row) (k : Value)
    (h : mapGet rows k = none) : ∀ r ∈ rows, msid r ≠ k := by
  induction rows with
  | nil => intro r hr; cases hr
  | cons a rest ih =>
    simp only [mapGet] at h
    cases hrest : mapGet rest k with
    | some r3 => rw [hrest] at h; cases h
    | none =>
      rw [hrest] at h
      by_cases ha : msid a = k
      · rw [if_pos ha] at h; cases h
      · rw [if_neg ha] at h
        intro r hr
        cases hr with
        | head => exact ha
        | tail _ hr2 => exact ih hrest r hr2

/-- When every target key has a matching source row, the merge loop pairs
every target row, in target order, with a source row of the same key. -/
theorem joinRows_total (src tgt : List Row)
    (h : ∀ t ∈ tgt, ∃ s ∈ src, msid s = msid t) :
    (joinRows src tgt).length = tgt.length ∧
    (joinRows src tgt).map Prod.snd = tgt ∧
    ∀ p ∈ joinRows src tgt, msid p.1 = msid p.2 := by
  induction tgt with
  | nil => exact ⟨rfl, rfl, by intro p hp; cases hp⟩
  | cons t rest ih =>
    obtain ⟨s0, hs0, hk0⟩ := h t (List.mem_cons_self t rest)
    cases hget : mapGet src (msid t) with
    | none => exact absurd hk0 (mapGet_none src (msid t) hget s0 hs0)
    | some s =>
      have hsound := mapGet_sound src (msid t) s hget
      have ihh := ih (fun t2 ht2 => h t2 (List.mem_cons_of_mem t ht2))
      have hstep : joinRows src (t :: rest) = (s, t) :: joinRows src rest := by
        simp [joinRows, List.filterMap_cons, hget]
      refine ⟨?_, ?_, ?_⟩
      · simp [hstep, ihh.1]
      · simp [hstep, ihh.2.1]
      · intro p hp
        rw [hstep] at hp
        cases hp with
        | head => exact hsound.1
        | tail _ hp2 => exact ihh.2.2 p hp2

/-!
## C5 — join completeness
-/

/-- C5: when both row sets pass the key-column check and every key of one
side appears on the other, `validateAndMergeData` reaches the merge
branch, the joined list has exactly one record per target row, its order
is the target set's original order, and every joined record pairs rows
with equal `MSID`. -/
theorem join_completeness (src tgt : List Row)
    (hs : hasKeyCol src = true) (ht : hasKeyCol tgt = true)
    (hst : ∀ k ∈ src.map msid, k ∈ tgt.map msid)
    (hts : ∀ k ∈ tgt.map msid, k ∈ src.map msid) :
    validateAndMergeData src tgt =
      .merged (joinRows src tgt) (joinMismatches src tgt) ∧
    (joinRows src tgt).length = tgt.length ∧
    (joinRows src tgt).map Prod.snd = tgt ∧
    ∀ p ∈ joinRows src tgt, msid p.1 = msid p.2 := by
  have hmt : (keysOf src).filter (fun k => !(keysOf tgt).contains k) = [] := by
    rw [List.filter_eq_nil_iff]
    intro k hk
    have : k ∈ tgt.map msid := hst k ((mem_dedupFirst k _).mp hk)
    simp [List.elem_eq_mem, (mem_dedupFirst k (tgt.map msid)).mpr this, keysOf]
  have hms : (keysOf tgt).filter (fun k => !(keysOf src).contains k) = [] := by
    rw [List.filter_eq_nil_iff]
    intro k hk
    have : k ∈ src.map msid := hts k ((mem_dedupFirst k _).mp hk)
    simp [List.elem_eq_mem, (mem_dedupFirst k (src.map msid)).mpr this, keysOf]
  have hjoin := joinRows_total src tgt (fun t htmem => by
    obtain ⟨s, hsmem, hsk⟩ := List.mem_map.mp
      (hts (msid t) (List.mem_map_of_mem msid htmem))
    exact ⟨s, hsmem, hsk⟩)
  refine ⟨?_, hjoin⟩
  unfold validateAndMergeData
  rw [if_neg (by simp [hs, ht])]
  simp only [hmt, hms]
  rfl

/-- C5 (witness): two-row sets listed in different orders on each side;
the join succeeds, has one record per target row, follows the target
order `A, B` (not the source order `B, A`), and matches keys. -/
theorem join_completeness_witness :
    validateAndMergeData [srcRowB, srcRowA] [tgtRowA, tgtRowB] =
      .merged (joinRows [srcRowB, srcRowA] [tgtRowA, tgtRowB])
        (joinMismatches [srcRowB, srcRowA] [tgtRowA, tgtRowB]) ∧
    (joinRows [srcRowB, srcRowA] [tgtRowA, tgtRowB]).length = 2 ∧
    (joinRows [srcRowB, srcRowA] [tgtRowA, tgtRowB]).map Prod.snd =
      [tgtRowA, tgtRowB] ∧
    joinRows [srcRowB, srcRowA] [tgtRowA, tgtRowB] =
      [(srcRowA, tgtRowA), (srcRowB, tgtRowB)] := by
  have h := join_completeness [srcRowB, srcRowA] [tgtRowA, tgtRowB]
    (by decide) (by decide) (by decide) (by decide)
  exact ⟨h.1, h.2.1, h.2.2.1, by decide⟩

/-!
## C6 — parity-error enumeration
-/

/-- First-occurrence dedup commutes with filtering. -/
theorem dedupFirst_filter (p : Value → Bool) (l : List Value) :
    dedupFirst (l.filter p) = (dedupFirst l).filter p := by
  suffices h : ∀ (n : Nat) (l : List Value), l.length = n →
      dedupFirst (l.filter p) = (dedupFirst l).filter p from h _ l rfl
  intro n
  induction n using Nat.strong_induction_on with
  | _ n ih =>
    intro l hn
    cases l with
    | nil => rfl
    | cons a t =>
      have hlt : (t.filter (fun b => b ≠ a)).length < n := by
        subst hn
        simp only [List.length_cons]
        exact Nat.lt_succ_of_le (List.length_filter_le _ _)
      by_cases hpa : p a = true
      · rw [List.filter_cons_of_pos hpa, dedupFirst_cons, dedupFirst_cons,
          List.filter_cons_of_pos hpa, List.filter_filter,
          List.filter_congr
            (fun x _ => Bool.and_comm (decide (x ≠ a)) (p x)),
          ← List.filter_filter, ih _ hlt _ rfl]
      · rw [List.filter_cons_of_neg hpa, dedupFirst_cons,
          List.filter_cons_of_neg hpa, ← ih _ hlt _ rfl,
          List.filter_filter]
        congr 1
        apply List.filter_congr
        intro x _
        by_cases hx : p x = true
        · have hxa : x ≠ a := by
            intro hcontra
            subst hcontra
            exact hpa hx
          simp [hx, hxa]
        · simp only [Bool.not_eq_true] at hx
          simp [hx]


/-- First-occurrence dedup of a concatenation: the left part deduped,
followed by the deduped right part with all left-side values removed. -/
theorem dedupFirst_append (S T : List Value) :
    dedupFirst (S ++ T) =
      dedupFirst S ++ (dedupFirst T).filter (fun k => !S.contains k) := by
  suffices h : ∀ (n : Nat) (S T2 : List Value), S.length = n →
      dedupFirst (S ++ T2) =
        dedupFirst S ++ (dedupFirst T2).filter (fun k => !S.contains k) from
    h _ S T rfl
  intro n
  induction n using Nat.strong_induction_on with
  | _ n ih =>
    intro S T2 hn
    cases S with
    | nil =>
      simp [List.elem_eq_mem, dedupFirst, dedupFirstAux, List.filter_true]
    | cons a S2 =>
      have hlt : (S2.filter (fun b => b ≠ a)).length < n := by
        subst hn
        simp only [List.length_cons]
        exact Nat.lt_succ_of_le (List.length_filter_le _ _)
      rw [List.cons_append, dedupFirst_cons, List.filter_append,
        ih _ hlt _ _ rfl, dedupFirst_cons, List.cons_append]
      congr 2
      rw [dedupFirst_filter, List.filter_filter]
      apply List.filter_congr
      intro k hk
      by_cases hka : k = a
      · subst hka
        simp [List.elem_eq_mem]
      · simp [List.elem_eq_mem, List.mem_filter, List.mem_cons, hka]


/-- The details list built by the parity check (keys missing from the
target in source first-occurrence order, then keys missing from the
source in target first-occurrence order) is exactly the spec-side
enumeration `parityDetailsSpec`. -/
theorem parityDetails_code_eq_spec (src tgt : List Row) :
    ((keysOf src).filter (fun k => !(keysOf tgt).contains k)).map
        (fun k => MissingEntry.mk k .target) ++
      ((keysOf tgt).filter (fun k => !(keysOf src).contains k)).map
        (fun k => MissingEntry.mk k .source) =
      parityDetailsSpec src tgt := by
  have hsubA : ∀ (l : List Value), (∀ k ∈ l, k ∈ src.map msid) →
      l.filterMap (fun k =>
        if !(keysOf tgt).contains k then some (MissingEntry.mk k .target)
        else if !(keysOf src).contains k then some (MissingEntry.mk k .source)
        else none) =
      (l.filter (fun k => !(keysOf tgt).contains k)).map
        (fun k => MissingEntry.mk k .target) := by
    intro l hl
    induction l with
    | nil => rfl
    | cons k t ih =>
      have hkS : (keysOf src).contains k = true := by
        simp only [List.elem_eq_mem, decide_eq_true_eq, keysOf]
        exact (mem_dedupFirst k _).mpr (hl k (List.mem_cons_self k t))
      have iht := ih (fun x hx => hl x (List.mem_cons_of_mem k hx))
      cases hc : (keysOf tgt).contains k with
      | false =>
        have hcm : ¬ k ∈ keysOf tgt := by simpa [List.elem_eq_mem] using hc
        simpa [List.filterMap_cons, List.filter_cons, hcm] using iht
      | true =>
        have hcm : k ∈ keysOf tgt := by simpa [List.elem_eq_mem] using hc
        have hkSm : k ∈ keysOf src := by simpa [List.elem_eq_mem] using hkS
        simpa [List.filterMap_cons, List.filter_cons, hcm, hkSm] using iht
  have hsubB : ∀ (l : List Value),
      (∀ k ∈ l, k ∈ tgt.map msid ∧ k ∉ src.map msid) →
      l.filterMap (fun k =>
        if !(keysOf tgt).contains k then some (MissingEntry.mk k .target)
        else if !(keysOf src).contains k then some (MissingEntry.mk k .source)
        else none) =
      l.map (fun k => MissingEntry.mk k .source) := by
    intro l hl
    induction l with
    | nil => rfl
    | cons k t ih =>
      obtain ⟨hkT, hkS⟩ := hl k (List.mem_cons_self k t)
      have hcT : k ∈ keysOf tgt := by
        simp [keysOf, mem_dedupFirst, hkT]
      have hcS : ¬ k ∈ keysOf src := by
        simp [keysOf, mem_dedupFirst, hkS]
      simpa [List.filterMap_cons, hcT, hcS] using
        ih (fun x hx => (hl x (List.mem_cons_of_mem k hx)))
  unfold parityDetailsSpec
  rw [dedupFirst_append, List.filterMap_append]
  congr 1
  · exact (hsubA (keysOf src) (fun k hk => (mem_dedupFirst k _).mp hk)).symm
  · rw [hsubB ((dedupFirst (tgt.map msid)).filter
        (fun k => !(src.map msid).contains k))
      (fun k hk => by
        have h2 := List.mem_filter.mp hk
        refine ⟨(mem_dedupFirst k _).mp h2.1, ?_⟩
        have h3 := h2.2
        simp only [List.elem_eq_mem, Bool.not_eq_true',
          decide_eq_false_iff_not] at h3
        exact h3)]
    congr 1
    apply List.filter_congr
    intro k hk
    simp [keysOf, mem_dedupFirst]


theorem firstIdx_cons_self (a : Value) (l : List Value) :
    firstIdx (a :: l) a = 0 := by
  simp [firstIdx]

theorem firstIdx_cons_ne (a k : Value) (l : List Value) (h : a ≠ k) :
    firstIdx (a :: l) k = firstIdx l k + 1 := by
  simp [firstIdx, h]

theorem firstIdx_filter_mono (p : Value → Bool) :
    ∀ (l : List Value) (a b : Value), a ∈ l.filter p → b ∈ l.filter p →
      firstIdx (l.filter p) a < firstIdx (l.filter p) b →
      firstIdx l a < firstIdx l b := by
  intro l
  induction l with
  | nil => intro a b ha _ _; cases ha
  | cons x t ih =>
    intro a b ha hb hlt
    by_cases hpx : p x = true
    · rw [List.filter_cons_of_pos hpx] at ha hb hlt
      by_cases hax : x = a
      · subst hax
        by_cases hbx : x = b
        · subst hbx
          exact absurd hlt (lt_irrefl _)
        · rw [firstIdx_cons_self, firstIdx_cons_ne _ _ _ hbx]
          exact Nat.zero_lt_succ _
      · by_cases hbx : x = b
        · subst hbx
          rw [firstIdx_cons_self] at hlt
          exact absurd hlt (Nat.not_lt_zero _)
        · rw [firstIdx_cons_ne _ _ _ hax, firstIdx_cons_ne _ _ _ hbx]
          rw [firstIdx_cons_ne _ _ _ hax, firstIdx_cons_ne _ _ _ hbx]
            at hlt
          have ha2 : a ∈ t.filter p := by
            cases ha with
            | head => exact absurd rfl hax
            | tail _ h => exact h
          have hb2 : b ∈ t.filter p := by
            cases hb with
            | head => exact absurd rfl hbx
            | tail _ h => exact h
          exact Nat.succ_lt_succ
            (ih a b ha2 hb2 (Nat.lt_of_succ_lt_succ hlt))
    · rw [List.filter_cons_of_neg hpx] at ha hb hlt
      have hpa : p a = true := (List.mem_filter.mp ha).2
      have hpb : p b = true := (List.mem_filter.mp hb).2
      have hax : x ≠ a := fun h => hpx (h ▸ hpa)
      have hbx : x ≠ b := fun h => hpx (h ▸ hpb)
      rw [firstIdx_cons_ne _ _ _ hax, firstIdx_cons_ne _ _ _ hbx]
      exact Nat.succ_lt_succ (ih a b ha hb hlt)

theorem dedupFirst_pairwise_firstIdx (l : List Value) :
    List.Pairwise (fun a b => firstIdx l a < firstIdx l b) (dedupFirst l) := by
  suffices h : ∀ (n : Nat) (l : List Value), l.length = n →
      List.Pairwise (fun a b => firstIdx l a < firstIdx l b) (dedupFirst l)
    from h _ l rfl
  intro n
  induction n using Nat.strong_induction_on with
  | _ n ih =>
    intro l hn
    cases l with
    | nil => exact List.Pairwise.nil
    | cons x t =>
      have hlt : (t.filter (fun b => b ≠ x)).length < n := by
        subst hn
        simp only [List.length_cons]
        exact Nat.lt_succ_of_le (List.length_filter_le _ _)
      rw [dedupFirst_cons]
      refine List.Pairwise.cons ?_ ?_
      · intro y hy
        have hyne : x ≠ y := by
          have h2 := (List.mem_filter.mp ((mem_dedupFirst y _).mp hy)).2
          simp only [ne_eq, decide_eq_true_eq] at h2
          exact fun h => h2 h.symm
        rw [firstIdx_cons_self, firstIdx_cons_ne _ _ _ hyne]
        exact Nat.zero_lt_succ _
      · have hpw := ih _ hlt (t.filter (fun b => b ≠ x)) rfl
        refine hpw.imp_of_mem ?_
        intro a b hma hmb hab
        have ha2 := (mem_dedupFirst a _).mp hma
        have hb2 := (mem_dedupFirst b _).mp hmb
        have hane : x ≠ a := by
          have h2 := (List.mem_filter.mp ha2).2
          simp only [ne_eq, decide_eq_true_eq] at h2
          exact fun h => h2 h.symm
        have hbne : x ≠ b := by
          have h2 := (List.mem_filter.mp hb2).2
          simp only [ne_eq, decide_eq_true_eq] at h2
          exact fun h => h2 h.symm
        rw [firstIdx_cons_ne _ _ _ hane, firstIdx_cons_ne _ _ _ hbne]
        exact Nat.succ_lt_succ
          (firstIdx_filter_mono _ t a b ha2 hb2 hab)

theorem pairwise_filterMap_keys {R : Value → Value → Prop}
    (g : Value → Option MissingEntry)
    (hg : ∀ k e, g k = some e → e.key = k) :
    ∀ (l : List Value), l.Pairwise R →
      (l.filterMap g).Pairwise (fun e1 e2 => R e1.key e2.key) := by
  intro l
  induction l with
  | nil =>
    intro _
    exact List.Pairwise.nil
  | cons a t ih =>
    intro h
    rw [List.pairwise_cons] at h
    rw [List.filterMap_cons]
    cases hga : g a with
    | none => exact ih h.2
    | some e =>
      refine List.Pairwise.cons ?_ (ih h.2)
      intro e2 he2
      obtain ⟨k, hk, hgk⟩ := List.mem_filterMap.mp he2
      rw [hg a e hga, hg k e2 hgk]
      exact h.1 k hk

theorem parityDetailsSpec_sorted (src tgt : List Row) :
    List.Pairwise (fun e1 e2 =>
      firstIdx (src.map msid ++ tgt.map msid) e1.key <
        firstIdx (src.map msid ++ tgt.map msid) e2.key)
      (parityDetailsSpec src tgt) := by
  unfold parityDetailsSpec
  exact @pairwise_filterMap_keys
    (fun a b => firstIdx (src.map msid ++ tgt.map msid) a <
      firstIdx (src.map msid ++ tgt.map msid) b)
    _
    (fun k e hk => by
      split_ifs at hk <;> injection hk with h2 <;> rw [← h2])
    _ (dedupFirst_pairwise_firstIdx _)


/-- C6: when both row sets pass the key-column check and some key value
appears on one side but not the other, the join fails with the parity
error and no joined records; the error details enumerate exactly the
offending keys, each tagged with the side it is missing from, and the
list is strictly sorted by first occurrence in the union of both sides
(source rows then target rows). -/
theorem parity_mismatch_enumeration (src tgt : List Row)
    (hs : hasKeyCol src = true) (ht : hasKeyCol tgt = true)
    (hmis : (∃ k ∈ src.map msid, k ∉ tgt.map msid) ∨
            (∃ k ∈ tgt.map msid, k ∉ src.map msid)) :
    validateAndMergeData src tgt =
      .parityError (parityDetailsSpec src tgt) ∧
    (∀ e : MissingEntry, e ∈ parityDetailsSpec src tgt ↔
      ((e.missingFrom = .target ∧ e.key ∈ src.map msid ∧
          e.key ∉ tgt.map msid) ∨
       (e.missingFrom = .source ∧ e.key ∈ tgt.map msid ∧
          e.key ∉ src.map msid))) ∧
    (∀ (pairs : List (Row × Row)) (mms : List (Value × String)),
      validateAndMergeData src tgt ≠ .merged pairs mms) ∧
    List.Pairwise (fun e1 e2 =>
      firstIdx (src.map msid ++ tgt.map msid) e1.key <
        firstIdx (src.map msid ++ tgt.map msid) e2.key)
      (parityDetailsSpec src tgt) := by
  have hcond : ((keysOf src).filter
        (fun k => !(keysOf tgt).contains k)).length > 0 ∨
      ((keysOf tgt).filter
        (fun k => !(keysOf src).contains k)).length > 0 := by
    cases hmis with
    | inl h =>
      obtain ⟨k, hkS, hkT⟩ := h
      refine Or.inl (List.length_pos.mpr (fun hnil => ?_))
      have hmem : k ∈ (keysOf src).filter
          (fun k => !(keysOf tgt).contains k) := by
        refine List.mem_filter.mpr ⟨(mem_dedupFirst k _).mpr hkS, ?_⟩
        simp [List.elem_eq_mem, keysOf, mem_dedupFirst, hkT]
      rw [hnil] at hmem
      cases hmem
    | inr h =>
      obtain ⟨k, hkT, hkS⟩ := h
      refine Or.inr (List.length_pos.mpr (fun hnil => ?_))
      have hmem : k ∈ (keysOf tgt).filter
          (fun k => !(keysOf src).contains k) := by
        refine List.mem_filter.mpr ⟨(mem_dedupFirst k _).mpr hkT, ?_⟩
        simp [List.elem_eq_mem, keysOf, mem_dedupFirst, hkS]
      rw [hnil] at hmem
      cases hmem
  have h1 : validateAndMergeData src tgt =
      .parityError (parityDetailsSpec src tgt) := by
    unfold validateAndMergeData
    rw [if_neg (by simp [hs, ht])]
    rw [if_pos (by
        rcases hcond with h | h <;> simp [List.elem_eq_mem] at h <;>
          simp [h]),
      parityDetails_code_eq_spec]
  refine ⟨h1, ?_, ?_, parityDetailsSpec_sorted src tgt⟩
  · intro e
    rw [← parityDetails_code_eq_spec]
    obtain ⟨ekey, eside⟩ := e
    simp only [List.mem_append, List.mem_map, List.mem_filter,
      MissingEntry.mk.injEq, keysOf, mem_dedupFirst, List.elem_eq_mem,
      Bool.not_eq_true', decide_eq_false_iff_not]
    constructor
    · rintro (⟨k, ⟨⟨hk1, hk2⟩, rfl, rfl⟩⟩ | ⟨k, ⟨⟨hk1, hk2⟩, rfl, rfl⟩⟩)
      · exact Or.inl ⟨rfl, hk1, by simpa [mem_dedupFirst] using hk2⟩
      · exact Or.inr ⟨rfl, hk1, by simpa [mem_dedupFirst] using hk2⟩
    · rintro (⟨hside, hk1, hk2⟩ | ⟨hside, hk1, hk2⟩)
      · subst hside
        exact Or.inl ⟨ekey, ⟨hk1, by simpa [mem_dedupFirst] using hk2⟩,
          rfl, rfl⟩
      · subst hside
        exact Or.inr ⟨ekey, ⟨hk1, by simpa [mem_dedupFirst] using hk2⟩,
          rfl, rfl⟩
  · intro pairs mms hcontra
    rw [h1] at hcontra
    cases hcontra


/-- C6 (witness): source keys `{A, B, C}` against target keys
`{B, C, D}`: the join fails with the parity error whose details list `A`
as missing from the target followed by `D` as missing from the source —
the order of first occurrence in the union of both sides. -/
theorem parity_mismatch_enumeration_witness :
    validateAndMergeData srcParity tgtParity =
      .parityError (parityDetailsSpec srcParity tgtParity) ∧
    parityDetailsSpec srcParity tgtParity =
      [⟨some "A", .target⟩, ⟨some "D", .source⟩] := by
  have h := parity_mismatch_enumeration srcParity tgtParity
    (by decide) (by decide)
    (Or.inl ⟨some "A", by decide, by decide⟩)
  exact ⟨h.1, by decide⟩

end Kualitee
